import Mathlib

/-!
Shallow embedding of `main_model.py`: a driver script that assembles a
bead-spring polymer model, wires restraint (energy) terms into a scoring
function, runs a Brownian-dynamics integrator in fixed-size chunks, records
per-iteration statistics, and pickles the collected series to disk.

The external modeling library (IMP) and the course-provided `dynamics` module
are not part of the repository sources; their behavior, where a claim needs
it, is modelled from the specification and marked as such.  Machine floats
are modelled as exact rationals.  Python object identity (used by the
`chain0 != chain1` test) is modelled by an explicit numeric `id` field that
`create_model` assigns from the loop index.
-/

namespace MainModel

/-- A 3D coordinate vector (`IMP.algebra.Vector3D`), modelled over ℚ. -/
abbrev Vec3 : Type := ℚ × ℚ × ℚ

/-- A bead particle handle.  Beads are created fresh by the chain factory;
their identity is modelled as (id of owning chain, index within chain). -/
abbrev Bead : Type := ℕ × ℕ

/-- The coordinates currently stored in the model for each bead
(`IMP.core.XYZ(bead).get_coordinates()`). -/
abbrev Pos : Type := Bead → Vec3

/-- An energy term over one or more beads.  The four kinds that occur in
`create_model`: per-chain connectivity (spring) restraints, the excluded
volume restraint over all beads, inter-chain restraints, and the bounding
sphere restraint. -/
inductive Restraint : Type
  | connectivity (chainId : ℕ) (beads : List Bead) (k_in relative_rest_distance : ℚ)
  | excludedVolume (beads : List Bead) (k slack : ℚ) (label : String)
  | interchain (id0 id1 : ℕ) (k_out : ℚ)
  | boundingSphere (beads : List Bead) (kbs sphere_radius : ℚ)
deriving DecidableEq

/-- A protein chain: an ordered list of beads plus its own connectivity
restraint.  `id` models Python object identity (each `create` call returns a
fresh object); `name` is the label passed to the factory. -/
structure Chain : Type where
  id : ℕ
  name : String
  beads : List Bead
  restraint : Restraint
deriving DecidableEq

/-- The parameters with which `create_model` instantiates
`ProteinChainFactory`. -/
structure ProteinChainFactory : Type where
  default_radius_A : ℚ
  k_in : ℚ
  k_out : ℚ
  relative_rest_distance : ℚ
  nres_per_bead : ℕ
  kbs : ℚ
  sphere_radius : ℚ

/-- Modelled from the spec: a chain is "an ordered sequence of beads (one per
N residues of an input sequence)", so the factory produces one bead per
`nres_per_bead` residues (rounding up).  `ProteinChainFactory` lives in the
`dynamics` module, which is not among the repository sources. -/
def ProteinChainFactory.nbeads (f : ProteinChainFactory) (seq : String) : ℕ :=
  (seq.length + f.nres_per_bead - 1) / f.nres_per_bead

/-- Modelled from the spec: `ProteinChainFactory.create` builds a chain from a
sequence string and a name, owning fresh beads and its intra-chain
connectivity (spring) restraint.  `chainId` models the identity of the fresh
Python object; `is_center` only affects initial coordinates, which are not
part of the chain structure. -/
def ProteinChainFactory.create (f : ProteinChainFactory) (seq : String)
    (chainId : ℕ) (name : String) (_is_center : Bool) : Chain :=
  let beads : List Bead := (List.range (f.nbeads seq)).map fun j => (chainId, j)
  { id := chainId
    name := name
    beads := beads
    restraint := Restraint.connectivity chainId beads f.k_in f.relative_rest_distance }

/-- Modelled from the spec: the factory's inter-chain restraint between two
chains (the `dynamics` module is not among the repository sources). -/
def ProteinChainFactory.get_interchain_restraint (f : ProteinChainFactory)
    (chain0 chain1 : Chain) : Restraint :=
  Restraint.interchain chain0.id chain1.id f.k_out

/-- Modelled from the spec: the factory's bounding-sphere restraint over a
set of beads (the `dynamics` module is not among the repository sources). -/
def ProteinChainFactory.get_bounding_sphere_restraint (f : ProteinChainFactory)
    (beads : List Bead) : Restraint :=
  Restraint.boundingSphere beads f.kbs f.sphere_radius

/-- Embeds `get_all_beads` (main_model.py lines 178-180):
`set().union(*[chain.beads for chain in chains])` folds the beads of every
chain into one Python set (membership-based, duplicate-free), and
`list(...)` enumerates that set in an unspecified order.  The set is
modelled by deduplicating the folded bead lists; the particular enumeration
order picked here is one instance of the unspecified set order. -/
def get_all_beads (chains : List Chain) : List Bead :=
  (chains.foldl (fun (acc : List Bead) (chain : Chain) => acc ++ chain.beads) []).dedup

/-- Embeds `generate_vecs_of_beads` (main_model.py lines 183-195).  In the
source, `vecs_of_beads` is created once before the chain loop and is never
reset, and `vecs_of_chains.append(vecs_of_beads)` appends a reference to that
same list object each time; the value the caller observes is therefore one
copy, per chain, of the coordinate list accumulated over ALL chains. -/
def generate_vecs_of_beads (pos : Pos) (chains : List Chain) : List (List Vec3) :=
  let vecs_of_beads : List Vec3 :=
    chains.foldl (fun acc chain => acc ++ chain.beads.map pos) []
  chains.map fun _ => vecs_of_beads

/-- The aggregate energy function (`IMP.core.RestraintsScoringFunction`),
holding the list of restraints it was built from and a string identifier. -/
structure ScoringFunction : Type where
  restraints : List Restraint
  name : String

/-- Modelled from the spec: `IMP.core.RestraintsScoringFunction` (external
library) evaluates to "the sum of all active restraint energies", given the
energy each individual restraint evaluates to in the current model state. -/
def ScoringFunction.evaluate (sf : ScoringFunction) (energy : Restraint → ℚ) : ℚ :=
  (sf.restraints.map energy).sum

/-- The simulation time step in femtoseconds (main_model.py line 5; the
source literal `1000.0` denotes exactly this rational). -/
def bd_step_size_fs : ℚ := 1000

/-- The observable configuration and state of the external
`IMP.atom.BrownianDynamics` integrator: current simulation time and last
evaluated score, plus the settings `start_bd_simulation` writes. -/
structure BD : Type where
  time_fs : ℚ
  last_score : ℚ
  max_time_step_fs : ℚ
  temperature : ℚ
  scoring : ScoringFunction

/-- Embeds `start_bd_simulation` (main_model.py lines 83-90): constructs the
integrator (a fresh `IMP.atom.BrownianDynamics` starts at simulation time 0;
its last score is unread before the first `optimize` call and modelled as 0),
binds the scoring function, and sets the maximum time step and the
temperature `T = 300`. -/
def start_bd_simulation (rsf : ScoringFunction) : BD :=
  { time_fs := 0
    last_score := 0
    max_time_step_fs := bd_step_size_fs
    temperature := 300
    scoring := rsf }

/-- The chain-construction loop of `create_model` (main_model.py lines
33-37): chain `i` is a fresh object (modelled by `id := i`) labelled
`"popZ_" ++ i`. -/
def create_model_chains (f : ProteinChainFactory) (seq : String) (nchains : ℕ)
    (is_center : Bool) : List Chain :=
  (List.range nchains).map fun i => f.create seq i ("popZ_" ++ toString i) is_center

/-- The restraint list assembled by `create_model` (main_model.py lines
49-68): the per-chain connectivity restraints, then the excluded-volume
restraint over all beads (force constant 1.0 and slack 10.0 in the source,
exactly the rationals 1 and 10), then one
inter-chain restraint for every ordered pair of distinct chains (the nested
loop with the `chain0 != chain1` object-identity test), then the
bounding-sphere restraint over all beads. -/
def create_model_restraints (f : ProteinChainFactory) (seq : String) (nchains : ℕ)
    (is_center : Bool) : List Restraint :=
  let chains := create_model_chains f seq nchains is_center
  let evr := Restraint.excludedVolume (get_all_beads chains) 1 10 "Excluded-Volume"
  ((chains.map Chain.restraint) ++ [evr])
    ++ (chains.flatMap fun chain0 =>
          (chains.filter fun chain1 => decide (chain0 ≠ chain1)).map fun chain1 =>
            f.get_interchain_restraint chain0 chain1)
    ++ [f.get_bounding_sphere_restraint (get_all_beads chains)]

/-- The inter-chain segment of the restraint list assembled by
`create_model` (main_model.py lines 61-66): the nested loop appends one
restraint per ordered pair of distinct chains.  This is the middle segment
of `create_model_restraints`, named for the proofs. -/
def model_interchain (f : ProteinChainFactory) (seq : String) (nchains : ℕ)
    (is_center : Bool) : List Restraint :=
  (create_model_chains f seq nchains is_center).flatMap fun chain0 =>
    ((create_model_chains f seq nchains is_center).filter
        fun chain1 => decide (chain0 ≠ chain1)).map
      fun chain1 => f.get_interchain_restraint chain0 chain1

/-- The scoring function `create_model` builds over the assembled restraint
list (main_model.py lines 70-71). -/
def create_model_scoring (f : ProteinChainFactory) (seq : String) (nchains : ℕ)
    (is_center : Bool) : ScoringFunction :=
  { restraints := create_model_restraints f seq nchains is_center
    name := "Scoring function" }

/-- The integrator `create_model` starts (main_model.py line 73): the
scoring function over the assembled restraints is bound to it. -/
def create_model_bd (f : ProteinChainFactory) (seq : String) (nchains : ℕ)
    (is_center : Bool) : BD :=
  start_bd_simulation (create_model_scoring f seq nchains is_center)

/-- Outer loop iteration count of `create_trajectory_file`
(main_model.py line 135). -/
def n_outer : ℕ := 50000

/-- Integrator steps per outer iteration (main_model.py line 136). -/
def n_inner : ℕ := 250

/-- The recorder state of `create_trajectory_file`: the integrator and bead
coordinates being advanced, and the four statistics series the loop appends
to (time in nanoseconds, energy, per-chain end-to-end distance, per-chain
coordinate snapshots). -/
structure TrajState : Type where
  bd : BD
  pos : Pos
  T_ns : List ℚ
  E : List ℚ
  D : List (List ℚ)
  chains_on_iteration : List (List (List Vec3))

/-- The external `bd.optimize(n_inner)` call as one step of the physical
system: `optimize` is the library's integrator advancing the integrator
state and the bead coordinates by the requested number of steps. -/
def phys_step (optimize : ℕ → BD → Pos → BD × Pos) (p : BD × Pos) : BD × Pos :=
  optimize n_inner p.1 p.2

/-- One outer iteration of the sampling loop (main_model.py lines 138-150):
read the current time (before the integration chunk) and convert
femtoseconds to nanoseconds, advance the integrator by `n_inner` steps, then
append the time, the post-chunk energy, each chain's end-to-end distance
between its first bead (`beads[0]`) and last bead (`beads[-1]`), and a
coordinate snapshot.  `get_distance` is the external
`IMP.core.get_distance`; an empty bead list would raise `IndexError` in the
source and is read here with a default bead, which the factory never
produces. -/
def traj_iter (optimize : ℕ → BD → Pos → BD × Pos) (get_distance : Vec3 → Vec3 → ℚ)
    (chains : List Chain) (s : TrajState) : TrajState :=
  let time_ns := s.bd.time_fs * (1 / 1000000)
  let bp := optimize n_inner s.bd s.pos
  { bd := bp.1
    pos := bp.2
    T_ns := s.T_ns ++ [time_ns]
    E := s.E ++ [bp.1.last_score]
    D := List.zipWith
        (fun d chain =>
          d ++ [get_distance (bp.2 (chain.beads.headD ((0, 0) : Bead)))
                  (bp.2 (chain.beads.getLastD ((0, 0) : Bead)))])
        s.D chains
    chains_on_iteration :=
      s.chains_on_iteration ++ [generate_vecs_of_beads bp.2 chains] }

/-- The outer sampling loop (`for i in range(n_outer)`), run for a given
number of iterations. -/
def traj_loop (optimize : ℕ → BD → Pos → BD × Pos) (get_distance : Vec3 → Vec3 → ℚ)
    (chains : List Chain) : ℕ → TrajState → TrajState
  | 0, s => s
  | n + 1, s => traj_loop optimize get_distance chains n (traj_iter optimize get_distance chains s)

/-- The recorder state at loop entry (main_model.py lines 131-134): all four
series empty, with one empty distance list per chain
(`D = [[] for chain in chains]`). -/
def traj_init (bd : BD) (pos : Pos) (chains : List Chain) : TrajState :=
  { bd := bd
    pos := pos
    T_ns := []
    E := []
    D := chains.map fun _ => []
    chains_on_iteration := [] }

/-- The sampling part of `create_trajectory_file` (main_model.py lines
131-150): run the outer loop `n_outer` times from the empty recorder
state. -/
def create_trajectory_file (optimize : ℕ → BD → Pos → BD × Pos)
    (get_distance : Vec3 → Vec3 → ℚ) (bd : BD) (pos : Pos)
    (chains : List Chain) : TrajState :=
  traj_loop optimize get_distance chains n_outer (traj_init bd pos chains)

/-- Round a non-negative scaled value to the nearest integer, ties to even:
the rounding Python's fixed-point float formatting performs. -/
def round_half_to_even (q : ℚ) : ℤ :=
  let f : ℤ := ⌊q⌋
  if q - f < 1 / 2 then f
  else if q - f > 1 / 2 then f + 1
  else if f % 2 = 0 then f else f + 1

/-- Zero-pad a fractional part (0 ≤ n < 1000) to exactly three digits. -/
def pad3 (n : ℕ) : String :=
  if n < 10 then "00" ++ toString n
  else if n < 100 then "0" ++ toString n
  else toString n

/-- Python's fixed-point formatting with three decimal places
(the f-string `.3f` conversion at main_model.py lines 163-164), modelled
over exact rationals: round the absolute value to the nearest thousandth
(ties to even) and print sign, integer part, and a three-digit fractional
part. -/
def format3 (q : ℚ) : String :=
  let n : ℤ := round_half_to_even (|q| * 1000)
  (if q < 0 then "-" else "") ++ toString (n / 1000) ++ "." ++ pad3 (n % 1000).toNat

/-- `os.path.flatten` for the case that occurs here (an absolute directory and
a relative file name). -/
def path_join (dir file : String) : String := dir ++ "/" ++ file

/-- The Python objects the script pickles: one of the four collected
series. -/
inductive PickleData : Type
  | times (t : List ℚ)
  | energies (e : List ℚ)
  | distances (d : List (List ℚ))
  | coords (c : List (List (List Vec3)))
deriving DecidableEq

/-- Embeds `create_pickle_from_array` (main_model.py lines 8-13): dump the
given object to `save_path/file_name.pkl`.  The observable effect is the
written file, modelled as a (path, data) pair. -/
def create_pickle_from_array (np_array : PickleData) (file_name save_path : String) :
    String × PickleData :=
  (path_join save_path (file_name ++ ".pkl"), np_array)

/-- The pickling epilogue of `create_trajectory_file` (main_model.py lines
160-173): format `k_out` and `sphere_radius` with three decimals and write
the four series to the current working directory, in source order. -/
def trajectory_pickle_writes (cwd : String) (k_out sphere_radius : ℚ)
    (s : TrajState) : List (String × PickleData) :=
  let kout := format3 k_out
  let spr_rad := format3 sphere_radius
  [ create_pickle_from_array (PickleData.times s.T_ns)
      ("T_ns_" ++ "kout_" ++ kout ++ "_" ++ "spr_rad_" ++ spr_rad) cwd
  , create_pickle_from_array (PickleData.energies s.E)
      ("Energy_" ++ "kout_" ++ kout ++ "_" ++ "spr_rad_" ++ spr_rad) cwd
  , create_pickle_from_array (PickleData.distances s.D)
      ("Distance-e-to-e_" ++ "kout_" ++ kout ++ "_" ++ "spr_rad_" ++ spr_rad) cwd
  , create_pickle_from_array (PickleData.coords s.chains_on_iteration)
      ("chain_on_iterations_" ++ "kout_" ++ kout ++ "_" ++ "spr_rad_" ++ spr_rad) cwd ]

/-- The sampling loop in the fallible (exception-aware) embedding: each
outer iteration performs external library calls that may raise, modelled as
a step returning `Except`.  The source contains no `try`/`except`, so an
error short-circuits via `bind`. -/
def traj_loopE {ε : Type} (stepE : TrajState → Except ε TrajState) :
    ℕ → TrajState → Except ε TrajState
  | 0, s => Except.ok s
  | n + 1, s => (stepE s).bind (traj_loopE stepE n)

/-- The pickling epilogue in the fallible embedding: perform the file writes
in order, stopping at the first raised error (no handler exists in the
source). -/
def writesE {ε : Type} (writeE : String × PickleData → Except ε Unit) :
    List (String × PickleData) → Except ε Unit
  | [] => Except.ok ()
  | w :: ws => (writeE w).bind fun _ => writesE writeE ws

/-- `create_trajectory_file` in the fallible embedding: the sampling loop
followed by the four pickle writes, sequenced by `bind` with no handler, as
in the source (which has no `try`/`except` and no retry logic). -/
def create_trajectory_fileE {ε : Type} (stepE : TrajState → Except ε TrajState)
    (writeE : String × PickleData → Except ε Unit) (cwd : String)
    (k_out sphere_radius : ℚ) (s0 : TrajState) : Except ε TrajState :=
  (traj_loopE stepE n_outer s0).bind fun s =>
    (writesE writeE (trajectory_pickle_writes cwd k_out sphere_radius s)).bind fun _ =>
      Except.ok s

/-- A demo coordinate assignment for concrete evaluations. -/
def posDemo : Pos := fun b => ((b.1 : ℚ), (b.2 : ℚ), 0)

/-- A one-bead demo chain with id 0. -/
def chainA : Chain :=
  { id := 0
    name := "popZ_0"
    beads := [(0, 0)]
    restraint := Restraint.connectivity 0 [(0, 0)] 1 3 }

/-- A one-bead demo chain with id 1. -/
def chainB : Chain :=
  { id := 1
    name := "popZ_1"
    beads := [(1, 0)]
    restraint := Restraint.connectivity 1 [(1, 0)] 1 3 }

/-- Demo factory parameters for concrete evaluations. -/
def demoFactory : ProteinChainFactory :=
  { default_radius_A := 1
    k_in := 1
    k_out := 2
    relative_rest_distance := 3
    nres_per_bead := 10
    kbs := 1
    sphere_radius := 5 }

/-- A demo integrator built over an empty scoring function. -/
def demoBD : BD := start_bd_simulation { restraints := [], name := "Scoring function" }

/-- A demo external integrator: each step chunk advances the simulation time
by the chunk size times the step size and records a fixed score. -/
def demoOpt : ℕ → BD → Pos → BD × Pos :=
  fun n bd pos => ({ bd with time_fs := bd.time_fs + n * 1000, last_score := 7 }, pos)

/-- A demo distance function standing in for the external
`IMP.core.get_distance`. -/
def demoDist : Vec3 → Vec3 → ℚ := fun _ _ => 0

/-- A demo recorder starting state over one chain. -/
def demoInit : TrajState := traj_init demoBD posDemo [chainA]

/-- C1: the coordinate snapshot is NOT per-chain per-bead.  On two one-bead
chains, `generate_vecs_of_beads` returns the full concatenated coordinate
list of both chains in EVERY entry (the accumulator is never reset and the
same list object is appended each time), so entry 0 is not the coordinate
list of chain 0's beads, contradicting the function's own docstring
`C[i][j] = XYZ of chain #i bead #j`. -/
theorem generate_vecs_of_beads_not_per_chain :
    generate_vecs_of_beads posDemo [chainA, chainB]
        = [[(0, 0, 0), (1, 0, 0)], [(0, 0, 0), (1, 0, 0)]]
    ∧ (generate_vecs_of_beads posDemo [chainA, chainB]).getD 0 []
        ≠ chainA.beads.map posDemo := by
  constructor
  · decide
  · decide

/-- One outer iteration appends exactly one element to the time, energy and
snapshot series. -/
theorem traj_iter_series_lengths (o : ℕ → BD → Pos → BD × Pos)
    (gd : Vec3 → Vec3 → ℚ) (ch : List Chain) (s : TrajState) :
    (traj_iter o gd ch s).T_ns.length = s.T_ns.length + 1
    ∧ (traj_iter o gd ch s).E.length = s.E.length + 1
    ∧ (traj_iter o gd ch s).chains_on_iteration.length
        = s.chains_on_iteration.length + 1 := by
  refine ⟨?_, ?_, ?_⟩ <;> simp [traj_iter]

/-- Appending one distance to each per-chain series (via `zipWith`) adds one
to each length, when there is one series per chain. -/
theorem map_length_zipWith_append (g : Chain → List ℚ → List ℚ)
    (hg : ∀ c d, (g c d).length = d.length + 1) :
    ∀ (D : List (List ℚ)) (ch : List Chain), D.length = ch.length →
      (List.zipWith (fun d chain => g chain d) D ch).map List.length
        = D.map fun d => d.length + 1 := by
  intro D
  induction D with
  | nil => intro ch _; simp
  | cons d ds ih =>
    intro ch hlen
    cases ch with
    | nil => simp at hlen
    | cons c cs =>
      simp only [List.zipWith, List.map]
      refine congrArg₂ _ (hg c d) (ih cs ?_)
      simpa using hlen

/-- Running the sampling loop `n` iterations appends `n` entries to the
time, energy and snapshot series and to every per-chain distance series. -/
theorem traj_loop_series_lengths (o : ℕ → BD → Pos → BD × Pos)
    (gd : Vec3 → Vec3 → ℚ) (ch : List Chain) :
    ∀ (n : ℕ) (s : TrajState),
      (traj_loop o gd ch n s).T_ns.length = s.T_ns.length + n
      ∧ (traj_loop o gd ch n s).E.length = s.E.length + n
      ∧ (traj_loop o gd ch n s).chains_on_iteration.length
          = s.chains_on_iteration.length + n
      ∧ (s.D.length = ch.length →
          (traj_loop o gd ch n s).D.map List.length
            = s.D.map fun d => d.length + n) := by
  intro n
  induction n with
  | zero => intro s; simp [traj_loop]
  | succ n ih =>
    intro s
    have hiter := traj_iter_series_lengths o gd ch s
    have h := ih (traj_iter o gd ch s)
    refine ⟨?_, ?_, ?_, ?_⟩
    · rw [traj_loop, h.1, hiter.1]; omega
    · rw [traj_loop, h.2.1, hiter.2.1]; omega
    · rw [traj_loop, h.2.2.1, hiter.2.2]; omega
    · intro hD
      have hzip : (traj_iter o gd ch s).D.map List.length
          = s.D.map fun d => d.length + 1 := by
        apply map_length_zipWith_append (fun chain d => d ++ [_]) (by simp) s.D ch hD
      have hDlen : (traj_iter o gd ch s).D.length = ch.length := by
        have := congrArg List.length hzip
        simpa [hD] using this
      rw [traj_loop, h.2.2.2 hDlen]
      have hcomp : List.map (fun d => d.length + n) (traj_iter o gd ch s).D
          = List.map (fun m => m + n) ((traj_iter o gd ch s).D.map List.length) := by
        rw [List.map_map]; rfl
      rw [hcomp, hzip, List.map_map]
      refine List.map_congr_left fun d _ => ?_
      simp only [Function.comp_apply]
      omega

/-- C2: after the sampling loop of `create_trajectory_file` completes, the
number of recorded samples equals the configured number of outer iterations
(`n_outer = 50000`): the time series `T_ns`, the energy series `E`, the
snapshot series `chains_on_iteration`, and each per-chain distance series
`D[i]` all have exactly 50000 entries, and each outer iteration appends
exactly one entry to each series. -/
theorem trajectory_sample_counts (o : ℕ → BD → Pos → BD × Pos)
    (gd : Vec3 → Vec3 → ℚ) (bd : BD) (pos : Pos) (ch : List Chain) :
    (create_trajectory_file o gd bd pos ch).T_ns.length = 50000
    ∧ (create_trajectory_file o gd bd pos ch).E.length = 50000
    ∧ (create_trajectory_file o gd bd pos ch).chains_on_iteration.length = 50000
    ∧ (create_trajectory_file o gd bd pos ch).D.map List.length
        = List.replicate ch.length 50000
    ∧ n_outer = 50000
    ∧ (∀ s : TrajState,
        (traj_iter o gd ch s).T_ns.length = s.T_ns.length + 1
        ∧ (traj_iter o gd ch s).E.length = s.E.length + 1
        ∧ (traj_iter o gd ch s).chains_on_iteration.length
            = s.chains_on_iteration.length + 1) := by
  have h := traj_loop_series_lengths o gd ch n_outer (traj_init bd pos ch)
  have hD0 : (traj_init bd pos ch).D.length = ch.length := by simp [traj_init]
  refine ⟨?_, ?_, ?_, ?_, rfl, fun s => traj_iter_series_lengths o gd ch s⟩
  · simpa [create_trajectory_file, traj_init, n_outer] using h.1
  · simpa [create_trajectory_file, traj_init, n_outer] using h.2.1
  · simpa [create_trajectory_file, traj_init, n_outer] using h.2.2.1
  · rw [create_trajectory_file, h.2.2.2 hD0]
    simp [traj_init, List.map_map, n_outer, List.map_const', Function.comp_def]

/-- C4: the scoring function bound to the integrator by `create_model` is
built from exactly the assembled restraint list, and its aggregate value is
the sum of the energies of all of those restraints and of nothing else, for
every assignment of energies to individual restraints. -/
theorem scoring_function_is_sum_of_restraints (f : ProteinChainFactory)
    (seq : String) (nchains : ℕ) (ic : Bool) (energy : Restraint → ℚ) :
    (create_model_bd f seq nchains ic).scoring.restraints
        = create_model_restraints f seq nchains ic
    ∧ (create_model_bd f seq nchains ic).scoring.evaluate energy
        = ((create_model_restraints f seq nchains ic).map energy).sum :=
  ⟨rfl, rfl⟩

/-- Appending two string literals under a common left factor. -/
theorem string_append_lit (x : String) {a b c : String} (h : a ++ b = c) :
    x ++ a ++ b = x ++ c := by
  rw [String.append_assoc, h]

/-- C5: on completion of the sampling loop exactly four pickle files are
written, one per collected series, each under the current working directory
with a name derived from `k_out` and `sphere_radius` formatted to three
decimal places and with the `.pkl` extension appended. -/
theorem pickle_outputs (cwd : String) (k_out sphere_radius : ℚ) (s : TrajState) :
    (trajectory_pickle_writes cwd k_out sphere_radius s).length = 4
    ∧ trajectory_pickle_writes cwd k_out sphere_radius s =
        [ (cwd ++ "/" ++ ("T_ns_kout_" ++ format3 k_out ++ "_spr_rad_"
              ++ format3 sphere_radius ++ ".pkl"), PickleData.times s.T_ns)
        , (cwd ++ "/" ++ ("Energy_kout_" ++ format3 k_out ++ "_spr_rad_"
              ++ format3 sphere_radius ++ ".pkl"), PickleData.energies s.E)
        , (cwd ++ "/" ++ ("Distance-e-to-e_kout_" ++ format3 k_out ++ "_spr_rad_"
              ++ format3 sphere_radius ++ ".pkl"), PickleData.distances s.D)
        , (cwd ++ "/" ++ ("chain_on_iterations_kout_" ++ format3 k_out ++ "_spr_rad_"
              ++ format3 sphere_radius ++ ".pkl"),
            PickleData.coords s.chains_on_iteration) ] := by
  have h1 : ∀ x : String, x ++ "_" ++ "spr_rad_" = x ++ "_spr_rad_" :=
    fun x => string_append_lit x (by decide)
  have h2 : ("T_ns_" : String) ++ "kout_" = "T_ns_kout_" := by decide
  have h3 : ("Energy_" : String) ++ "kout_" = "Energy_kout_" := by decide
  have h4 : ("Distance-e-to-e_" : String) ++ "kout_" = "Distance-e-to-e_kout_" := by
    decide
  have h5 : ("chain_on_iterations_" : String) ++ "kout_" = "chain_on_iterations_kout_" := by
    decide
  refine ⟨rfl, ?_⟩
  simp only [trajectory_pickle_writes, create_pickle_from_array, path_join,
    h2, h3, h4, h5, h1]

/-- The physical system (integrator plus coordinates) after `n` outer
iterations is exactly `n` applications of the external `optimize` call with
chunk size `n_inner`. -/
theorem traj_loop_phys (o : ℕ → BD → Pos → BD × Pos) (gd : Vec3 → Vec3 → ℚ)
    (ch : List Chain) : ∀ (n : ℕ) (s : TrajState),
    ((traj_loop o gd ch n s).bd, (traj_loop o gd ch n s).pos)
      = (phys_step o)^[n] (s.bd, s.pos) := by
  intro n
  induction n with
  | zero => intro s; simp [traj_loop]
  | succ n ih =>
    intro s
    rw [traj_loop, Function.iterate_succ_apply]
    exact ih (traj_iter o gd ch s)

/-- C6: the simulation driver configures the integrator with a maximum time
step of 1000.0 femtoseconds and a temperature of 300 K, binds the given
scoring function to it, and the sampling loop advances the physical system
exclusively through `optimize` calls of exactly `n_inner = 250` steps, one
per outer iteration. -/
theorem bd_configuration_and_chunking (rsf : ScoringFunction)
    (o : ℕ → BD → Pos → BD × Pos) (gd : Vec3 → Vec3 → ℚ) (ch : List Chain)
    (bd : BD) (pos : Pos) (n : ℕ) :
    (start_bd_simulation rsf).max_time_step_fs = 1000
    ∧ (start_bd_simulation rsf).temperature = 300
    ∧ (start_bd_simulation rsf).scoring = rsf
    ∧ bd_step_size_fs = 1000
    ∧ n_inner = 250
    ∧ ((traj_loop o gd ch n (traj_init bd pos ch)).bd,
        (traj_loop o gd ch n (traj_init bd pos ch)).pos)
        = (phys_step o)^[n] (bd, pos)
    ∧ (∀ s : TrajState,
        ((traj_iter o gd ch s).bd, (traj_iter o gd ch s).pos) = o 250 s.bd s.pos) :=
  ⟨rfl, rfl, rfl, rfl, rfl, traj_loop_phys o gd ch n (traj_init bd pos ch),
    fun _ => rfl⟩

/-- Closed form of the recorded time series: entry `k` is the integrator
time read BEFORE the `k`-th integration chunk, times 1/1000000. -/
theorem traj_loop_T_ns_closed (o : ℕ → BD → Pos → BD × Pos)
    (gd : Vec3 → Vec3 → ℚ) (ch : List Chain) : ∀ (n : ℕ) (s : TrajState),
    (traj_loop o gd ch n s).T_ns
      = s.T_ns ++ (List.range n).map
          (fun k => ((phys_step o)^[k] (s.bd, s.pos)).1.time_fs * (1 / 1000000)) := by
  intro n
  induction n with
  | zero => intro s; simp [traj_loop]
  | succ n ih =>
    intro s
    have hT : (traj_iter o gd ch s).T_ns
        = s.T_ns ++ [s.bd.time_fs * (1 / 1000000)] := rfl
    have hpair : ((traj_iter o gd ch s).bd, (traj_iter o gd ch s).pos)
        = phys_step o (s.bd, s.pos) := rfl
    rw [traj_loop, ih (traj_iter o gd ch s), hT, hpair, List.range_succ_eq_map]
    simp only [List.map_cons, Function.iterate_zero_apply, List.map_map,
      List.append_assoc, List.singleton_append, Function.comp_def,
      Function.iterate_succ_apply]

/-- Closed form of the recorded energy series: entry `k` is the
integrator's last score AFTER the `k`-th integration chunk. -/
theorem traj_loop_E_closed (o : ℕ → BD → Pos → BD × Pos)
    (gd : Vec3 → Vec3 → ℚ) (ch : List Chain) : ∀ (n : ℕ) (s : TrajState),
    (traj_loop o gd ch n s).E
      = s.E ++ (List.range n).map
          (fun k => ((phys_step o)^[k + 1] (s.bd, s.pos)).1.last_score) := by
  intro n
  induction n with
  | zero => intro s; simp [traj_loop]
  | succ n ih =>
    intro s
    have hE : (traj_iter o gd ch s).E
        = s.E ++ [(phys_step o (s.bd, s.pos)).1.last_score] := rfl
    have hpair : ((traj_iter o gd ch s).bd, (traj_iter o gd ch s).pos)
        = phys_step o (s.bd, s.pos) := rfl
    rw [traj_loop, ih (traj_iter o gd ch s), hE, hpair, List.range_succ_eq_map]
    simp only [List.map_cons, Function.iterate_one, Function.iterate_zero_apply,
      List.map_map, List.append_assoc, List.singleton_append, Function.comp_def,
      Function.iterate_succ_apply, Nat.zero_add]

/-- Indexing a mapped range with a default. -/
theorem getD_map_range {α : Type} (f : ℕ → α) (d : α) (n k : ℕ) (hk : k < n) :
    ((List.range n).map f).getD k d = f k := by
  rw [List.getD_eq_getElem?_getD, List.getElem?_map, List.getElem?_range hk]
  rfl

/-- C8: within every outer iteration `k` of the sampling loop, the recorded
time `T_ns[k]` is the integrator time read BEFORE the `k`-th integration
chunk (so `T_ns[0]` is the initial time), converted to nanoseconds by
multiplying by 1/1000000 (`1e-6`), while the recorded energy `E[k]` is the
score read AFTER that chunk — the two halves of one sample describe the
physical state before and after `optimize`.  `create_trajectory_file`
instantiates this loop at `n_outer` iterations. -/
theorem time_before_energy_after (o : ℕ → BD → Pos → BD × Pos)
    (gd : Vec3 → Vec3 → ℚ) (ch : List Chain) (bd : BD) (pos : Pos)
    (n k : ℕ) (hk : k < n) :
    (traj_loop o gd ch n (traj_init bd pos ch)).T_ns.getD k 0
        = ((phys_step o)^[k] (bd, pos)).1.time_fs * (1 / 1000000)
    ∧ (traj_loop o gd ch n (traj_init bd pos ch)).E.getD k 0
        = ((phys_step o)^[k + 1] (bd, pos)).1.last_score
    ∧ create_trajectory_file o gd bd pos ch
        = traj_loop o gd ch n_outer (traj_init bd pos ch) := by
  refine ⟨?_, ?_, rfl⟩
  · rw [traj_loop_T_ns_closed o gd ch n (traj_init bd pos ch)]
    simp only [traj_init, List.nil_append]
    exact getD_map_range _ 0 n k hk
  · rw [traj_loop_E_closed o gd ch n (traj_init bd pos ch)]
    simp only [traj_init, List.nil_append]
    exact getD_map_range _ 0 n k hk

/-- Witness for the staggered-sample theorem at one iteration. -/
theorem time_before_energy_after_witness :
    (0 : ℕ) < 1
    ∧ ((traj_loop demoOpt demoDist [chainA] 1 (traj_init demoBD posDemo [chainA])).T_ns.getD 0 0
          = ((phys_step demoOpt)^[0] (demoBD, posDemo)).1.time_fs * (1 / 1000000)
        ∧ (traj_loop demoOpt demoDist [chainA] 1 (traj_init demoBD posDemo [chainA])).E.getD 0 0
          = ((phys_step demoOpt)^[0 + 1] (demoBD, posDemo)).1.last_score
        ∧ create_trajectory_file demoOpt demoDist demoBD posDemo [chainA]
          = traj_loop demoOpt demoDist [chainA] n_outer (traj_init demoBD posDemo [chainA])) :=
  ⟨by decide, time_before_energy_after demoOpt demoDist [chainA] demoBD posDemo 1 0 (by decide)⟩

/-- Any error value the fallible sampling loop returns is exactly the error
raised by one of the external per-iteration calls (nothing is caught,
transformed, or recovered from). -/
theorem traj_loopE_error_origin {ε : Type} (stepE : TrajState → Except ε TrajState)
    (e : ε) : ∀ (n : ℕ) (s : TrajState), traj_loopE stepE n s = Except.error e →
      ∃ k s', k < n ∧ traj_loopE stepE k s = Except.ok s' ∧ stepE s' = Except.error e := by
  intro n
  induction n with
  | zero => intro s h; simp [traj_loopE] at h
  | succ n ih =>
    intro s h
    rw [traj_loopE] at h
    cases hst : stepE s with
    | error e' =>
      rw [hst] at h
      simp only [Except.bind, Except.error.injEq] at h
      exact ⟨0, s, Nat.succ_pos n, rfl, by rw [hst, h]⟩
    | ok s1 =>
      rw [hst] at h
      simp only [Except.bind] at h
      obtain ⟨k, s', hk, hloop, hstep⟩ := ih s1 h
      refine ⟨k + 1, s', by omega, ?_, hstep⟩
      rw [traj_loopE, hst]
      simpa only [Except.bind] using hloop

/-- If the first `k` iterations of the fallible sampling loop succeed and
the next external call raises, the loop returns that very error. -/
theorem traj_loopE_error_propagates {ε : Type} (stepE : TrajState → Except ε TrajState)
    (e : ε) : ∀ (k n : ℕ) (s s' : TrajState), k < n →
      traj_loopE stepE k s = Except.ok s' → stepE s' = Except.error e →
      traj_loopE stepE n s = Except.error e := by
  intro k
  induction k with
  | zero =>
    intro n s s' hn hok hfail
    have hs : s = s' := by simpa only [traj_loopE, Except.ok.injEq] using hok
    obtain ⟨m, rfl⟩ : ∃ m, n = m + 1 := ⟨n - 1, by omega⟩
    rw [traj_loopE, hs, hfail]
    rfl
  | succ k ih =>
    intro n s s' hn hok hfail
    rw [traj_loopE] at hok
    cases hst : stepE s with
    | error e'' =>
      rw [hst] at hok
      simp only [Except.bind] at hok
      exact Except.noConfusion hok
    | ok s1 =>
      rw [hst] at hok
      simp only [Except.bind] at hok
      obtain ⟨m, rfl⟩ : ∃ m, n = m + 1 := ⟨n - 1, by omega⟩
      rw [traj_loopE, hst]
      simp only [Except.bind]
      exact ih m s1 s' (by omega) hok hfail

/-- C7: no operation catches or handles a failure.  In the fallible
embedding of `create_trajectory_file` (sampling loop followed by the pickle
writes of `create_pickle_from_array`), an error raised during the loop or
during a file write propagates to the caller unchanged, any returned error
is precisely the error raised by one of the external calls, and no retry or
recovery path exists. -/
theorem errors_propagate_uncaught {ε : Type} (stepE : TrajState → Except ε TrajState)
    (writeE : String × PickleData → Except ε Unit) (cwd : String)
    (k_out sphere_radius : ℚ) (s0 : TrajState) (e : ε) :
    (traj_loopE stepE n_outer s0 = Except.error e →
      create_trajectory_fileE stepE writeE cwd k_out sphere_radius s0 = Except.error e)
    ∧ (∀ s, traj_loopE stepE n_outer s0 = Except.ok s →
        writesE writeE (trajectory_pickle_writes cwd k_out sphere_radius s)
            = Except.error e →
        create_trajectory_fileE stepE writeE cwd k_out sphere_radius s0 = Except.error e)
    ∧ (∀ n s, traj_loopE stepE n s = Except.error e →
        ∃ k s', k < n ∧ traj_loopE stepE k s = Except.ok s' ∧ stepE s' = Except.error e)
    ∧ (∀ n k s s', k < n → traj_loopE stepE k s = Except.ok s' →
        stepE s' = Except.error e → traj_loopE stepE n s = Except.error e) := by
  refine ⟨?_, ?_, fun n s h => traj_loopE_error_origin stepE e n s h,
    fun n k s s' h1 h2 h3 => traj_loopE_error_propagates stepE e k n s s' h1 h2 h3⟩
  · intro h
    rw [create_trajectory_fileE, h]
    rfl
  · intro s h1 h2
    rw [create_trajectory_fileE, h1]
    simp only [Except.bind]
    rw [h2]

/-- Witness: a failure in the very first integration chunk reaches the
caller of the fallible `create_trajectory_file` unchanged. -/
theorem errors_propagate_uncaught_witness :
    create_trajectory_fileE (fun _ => Except.error "boom")
        (fun _ => Except.ok ()) "/tmp" 1 1 demoInit = Except.error "boom" :=
  (errors_propagate_uncaught (fun _ => Except.error "boom") (fun _ => Except.ok ())
      "/tmp" 1 1 demoInit "boom").1
    ((errors_propagate_uncaught (fun _ => Except.error "boom") (fun _ => Except.ok ())
        "/tmp" 1 1 demoInit "boom").2.2.2 n_outer 0 demoInit demoInit
      (by decide) rfl rfl)

/-- Folding list concatenation over the chains' bead lists. -/
theorem foldl_append_beads (chains : List Chain) :
    ∀ acc : List Bead, chains.foldl (fun acc chain => acc ++ chain.beads) acc
      = acc ++ (chains.map Chain.beads).flatten := by
  induction chains with
  | nil => intro acc; simp
  | cons c cs ih => intro acc; simp [List.foldl, ih, List.append_assoc]

/-- C10: `get_all_beads` returns a duplicate-free list whose elements are
exactly the union of the bead sets of all chains (in an order the Python
set does not specify), and when no bead occurs twice across the chains'
bead lists — every bead belongs to exactly one chain slot — its length is
the sum of the chains' bead counts. -/
theorem get_all_beads_spec (chains : List Chain) :
    (get_all_beads chains).Nodup
    ∧ (∀ b, b ∈ get_all_beads chains ↔ ∃ c ∈ chains, b ∈ c.beads)
    ∧ (((chains.map Chain.beads).flatten).Nodup →
        (get_all_beads chains).length = (chains.map fun c => c.beads.length).sum) := by
  have hfold : (chains.foldl (fun acc chain => acc ++ chain.beads) [])
      = (chains.map Chain.beads).flatten := by
    simpa using foldl_append_beads chains []
  refine ⟨List.nodup_dedup _, ?_, ?_⟩
  · intro b
    rw [get_all_beads, List.mem_dedup, hfold, List.mem_flatten]
    constructor
    · rintro ⟨l, hl, hb⟩
      rw [List.mem_map] at hl
      obtain ⟨c, hc, rfl⟩ := hl
      exact ⟨c, hc, hb⟩
    · rintro ⟨c, hc, hb⟩
      exact ⟨c.beads, List.mem_map_of_mem _ hc, hb⟩
  · intro h
    rw [get_all_beads, hfold, List.dedup_eq_self.mpr h, List.length_flatten,
      List.map_map]
    rfl

/-- Witness: on two disjoint one-bead chains, `get_all_beads` has length
1 + 1. -/
theorem get_all_beads_spec_witness :
    ((([chainA, chainB].map Chain.beads).flatten).Nodup)
    ∧ (get_all_beads [chainA, chainB]).length = 2 :=
  ⟨by decide, (get_all_beads_spec [chainA, chainB]).2.2 (by decide)⟩

/-- Membership in the chain list built by `create_model`. -/
theorem mem_create_model_chains (f : ProteinChainFactory) (seq : String) (ic : Bool)
    (n : ℕ) (c : Chain) :
    c ∈ create_model_chains f seq n ic
      ↔ ∃ i, i < n ∧ c = f.create seq i ("popZ_" ++ toString i) ic := by
  rw [create_model_chains, List.mem_map]
  constructor
  · rintro ⟨i, hi, rfl⟩
    exact ⟨i, List.mem_range.mp hi, rfl⟩
  · rintro ⟨i, hi, rfl⟩
    exact ⟨i, List.mem_range.mpr hi, rfl⟩

/-- Within the chain list built by `create_model`, the object id determines
the chain. -/
theorem create_model_chains_id_inj (f : ProteinChainFactory) (seq : String)
    (ic : Bool) (n : ℕ) :
    ∀ c1 ∈ create_model_chains f seq n ic, ∀ c2 ∈ create_model_chains f seq n ic,
      c1.id = c2.id → c1 = c2 := by
  intro c1 h1 c2 h2 hid
  obtain ⟨i, _, rfl⟩ := (mem_create_model_chains f seq ic n c1).mp h1
  obtain ⟨j, _, rfl⟩ := (mem_create_model_chains f seq ic n c2).mp h2
  have hij : i = j := hid
  rw [hij]

/-- The chains built by `create_model` are pairwise distinct objects. -/
theorem create_model_chains_nodup (f : ProteinChainFactory) (seq : String)
    (ic : Bool) (n : ℕ) : (create_model_chains f seq n ic).Nodup := by
  rw [create_model_chains]
  refine List.Nodup.map ?_ (List.nodup_range n)
  intro a b h
  exact congrArg Chain.id h

/-- The inter-chain segment, rewritten over the loop indices: the chain
objects are in bijection with `range n`, and the object-identity test
`chain0 != chain1` coincides with index inequality. -/
theorem model_interchain_eq_range (f : ProteinChainFactory) (seq : String)
    (ic : Bool) (n : ℕ) :
    model_interchain f seq n ic
      = (List.range n).flatMap fun i =>
          ((List.range n).filter fun j => decide (i ≠ j)).map
            fun j => Restraint.interchain i j f.k_out := by
  have hgi : ∀ a b : ℕ,
      (f.create seq a ("popZ_" ++ toString a) ic = f.create seq b ("popZ_" ++ toString b) ic)
        ↔ a = b := by
    intro a b
    constructor
    · intro h
      exact congrArg Chain.id h
    · intro h
      rw [h]
  rw [model_interchain, create_model_chains, List.flatMap_map]
  refine congrArg (List.flatMap (List.range n)) (funext fun i => ?_)
  rw [List.map_filter, List.map_map]
  have hpred : ∀ j ∈ List.range n,
      ((fun c1 => decide (f.create seq i ("popZ_" ++ toString i) ic ≠ c1))
          ∘ fun i => f.create seq i ("popZ_" ++ toString i) ic) j
        = decide (i ≠ j) := by
    intro j _
    simp only [Function.comp_apply]
    exact decide_eq_decide.mpr (not_congr (hgi i j))
  rw [List.filter_congr hpred]
  rfl

/-- Removing one present index from `range n` by filtering leaves `n - 1`
elements. -/
theorem length_filter_ne_range (n i : ℕ) (hi : i < n) :
    ((List.range n).filter fun j => decide (i ≠ j)).length = n - 1 := by
  induction n with
  | zero => omega
  | succ m ih =>
    rw [List.range_succ, List.filter_append, List.length_append]
    rcases eq_or_ne i m with rfl | hne
    · have h1 : (List.range i).filter (fun j => decide (i ≠ j)) = List.range i :=
        List.filter_eq_self.mpr fun j hj =>
          decide_eq_true (by have := List.mem_range.mp hj; omega)
      have h2 : ([i].filter fun j => decide (i ≠ j)) = [] := by simp
      rw [h1, h2]
      simp [List.length_range]
    · have hi' : i < m := by omega
      have h2 : ([m].filter fun j => decide (i ≠ j)) = [m] := by simp [hne]
      rw [ih hi', h2]
      simp only [List.length_singleton]
      omega

/-- The inter-chain segment contains exactly the inter-chain restraints over
ordered pairs of distinct chain indices below `n`. -/
theorem mem_model_interchain (f : ProteinChainFactory) (seq : String) (ic : Bool)
    (n : ℕ) (r : Restraint) :
    r ∈ model_interchain f seq n ic
      ↔ ∃ i j, i < n ∧ j < n ∧ i ≠ j ∧ r = Restraint.interchain i j f.k_out := by
  rw [model_interchain_eq_range, List.mem_flatMap]
  constructor
  · rintro ⟨i, hi, hr⟩
    rw [List.mem_map] at hr
    obtain ⟨j, hj, rfl⟩ := hr
    rw [List.mem_filter] at hj
    exact ⟨i, j, List.mem_range.mp hi, List.mem_range.mp hj.1,
      by simpa using hj.2, rfl⟩
  · rintro ⟨i, j, hi, hj, hij, rfl⟩
    refine ⟨i, List.mem_range.mpr hi, ?_⟩
    rw [List.mem_map]
    refine ⟨j, ?_, rfl⟩
    rw [List.mem_filter]
    exact ⟨List.mem_range.mpr hj, by simpa using hij⟩

/-- No inter-chain restraint is produced twice. -/
theorem model_interchain_nodup (f : ProteinChainFactory) (seq : String)
    (ic : Bool) (n : ℕ) : (model_interchain f seq n ic).Nodup := by
  rw [model_interchain_eq_range, List.nodup_flatMap]
  constructor
  · intro i _
    refine List.Nodup.map ?_ (List.Nodup.filter _ (List.nodup_range n))
    intro a b h
    rw [Restraint.interchain.injEq] at h
    exact h.2.1
  · refine List.Pairwise.imp_of_mem ?_ (List.nodup_range n)
    intro a b _ _ hne r hra hrb
    rw [List.mem_map] at hra hrb
    obtain ⟨x, _, rfl⟩ := hra
    obtain ⟨y, _, heq⟩ := hrb
    rw [Restraint.interchain.injEq] at heq
    exact hne heq.1.symm

/-- The inter-chain segment has one element per ordered pair of distinct
chains. -/
theorem model_interchain_length (f : ProteinChainFactory) (seq : String)
    (ic : Bool) (n : ℕ) : (model_interchain f seq n ic).length = n * (n - 1) := by
  rw [model_interchain_eq_range, List.length_flatMap]
  have hmap : (List.range n).map
      (List.length ∘ fun i => ((List.range n).filter fun j => decide (i ≠ j)).map
        fun j => Restraint.interchain i j f.k_out)
      = (List.range n).map fun _ => n - 1 := by
    refine List.map_congr_left fun i hi => ?_
    simp only [Function.comp_apply, List.length_map]
    exact length_filter_ne_range n i (List.mem_range.mp hi)
  rw [hmap, List.map_const', List.sum_replicate, List.length_range, smul_eq_mul]

/-- The restraint list of `create_model`, split into its four segments. -/
theorem create_model_restraints_decomp (f : ProteinChainFactory) (seq : String)
    (ic : Bool) (n : ℕ) :
    create_model_restraints f seq n ic
      = (create_model_chains f seq n ic).map Chain.restraint
        ++ [Restraint.excludedVolume (get_all_beads (create_model_chains f seq n ic))
              1 10 "Excluded-Volume"]
        ++ model_interchain f seq n ic
        ++ [Restraint.boundingSphere (get_all_beads (create_model_chains f seq n ic))
              f.kbs f.sphere_radius] := rfl

/-- C3: for every `nchains ≥ 1` the restraint list assembled by
`create_model` consists exactly of one connectivity restraint per chain,
one excluded-volume restraint over the beads of all chains, inter-chain
restraints between distinct chains, and one bounding-sphere restraint over
all beads — and nothing else. -/
theorem create_model_restraint_composition (f : ProteinChainFactory) (seq : String)
    (ic : Bool) (n : ℕ) (hn : 1 ≤ n) :
    (∃ inter : List Restraint,
        create_model_restraints f seq n ic
          = (create_model_chains f seq n ic).map Chain.restraint
            ++ [Restraint.excludedVolume (get_all_beads (create_model_chains f seq n ic))
                  1 10 "Excluded-Volume"]
            ++ inter
            ++ [Restraint.boundingSphere (get_all_beads (create_model_chains f seq n ic))
                  f.kbs f.sphere_radius]
        ∧ (∀ r ∈ inter, ∃ i j, i < n ∧ j < n ∧ i ≠ j
            ∧ r = Restraint.interchain i j f.k_out)
        ∧ (∀ i j, i < n → j < n → i ≠ j →
            Restraint.interchain i j f.k_out ∈ inter))
    ∧ (∀ c ∈ create_model_chains f seq n ic,
        c.restraint
          = Restraint.connectivity c.id c.beads f.k_in f.relative_rest_distance)
    ∧ (create_model_chains f seq n ic).length = n := by
  refine ⟨⟨model_interchain f seq n ic, create_model_restraints_decomp f seq ic n,
      fun r hr => (mem_model_interchain f seq ic n r).mp hr,
      fun i j hi hj hij =>
        (mem_model_interchain f seq ic n _).mpr ⟨i, j, hi, hj, hij, rfl⟩⟩,
    ?_, ?_⟩
  · intro c hc
    obtain ⟨i, _, rfl⟩ := (mem_create_model_chains f seq ic n c).mp hc
    rfl
  · simp [create_model_chains]

/-- Witness for the restraint-composition theorem at one chain. -/
theorem create_model_restraint_composition_witness :
    (1 ≤ 1)
    ∧ ((∃ inter : List Restraint,
          create_model_restraints demoFactory "AAAA" 1 true
            = (create_model_chains demoFactory "AAAA" 1 true).map Chain.restraint
              ++ [Restraint.excludedVolume
                    (get_all_beads (create_model_chains demoFactory "AAAA" 1 true))
                    1 10 "Excluded-Volume"]
              ++ inter
              ++ [Restraint.boundingSphere
                    (get_all_beads (create_model_chains demoFactory "AAAA" 1 true))
                    demoFactory.kbs demoFactory.sphere_radius]
          ∧ (∀ r ∈ inter, ∃ i j, i < 1 ∧ j < 1 ∧ i ≠ j
              ∧ r = Restraint.interchain i j demoFactory.k_out)
          ∧ (∀ i j, i < 1 → j < 1 → i ≠ j →
              Restraint.interchain i j demoFactory.k_out ∈ inter))
        ∧ (∀ c ∈ create_model_chains demoFactory "AAAA" 1 true,
            c.restraint = Restraint.connectivity c.id c.beads
              demoFactory.k_in demoFactory.relative_rest_distance)
        ∧ (create_model_chains demoFactory "AAAA" 1 true).length = 1) :=
  ⟨le_refl 1, create_model_restraint_composition demoFactory "AAAA" true 1 (le_refl 1)⟩

/-- C9: inter-chain restraints are created once per ordered pair of distinct
chains (so each unordered pair contributes two terms, one in each
direction), and with `nchains = n` the assembled restraint list has exactly
`n + n*(n-1) + 2` elements. -/
theorem interchain_restraint_counts (f : ProteinChainFactory) (seq : String)
    (ic : Bool) (n i j : ℕ) (hi : i < n) (hj : j < n) (hij : i ≠ j) :
    (create_model_restraints f seq n ic).count (Restraint.interchain i j f.k_out) = 1
    ∧ (create_model_restraints f seq n ic).count (Restraint.interchain j i f.k_out) = 1
    ∧ (create_model_restraints f seq n ic).length = n + n * (n - 1) + 2 := by
  have hcount : ∀ a b : ℕ, a < n → b < n → a ≠ b →
      (create_model_restraints f seq n ic).count (Restraint.interchain a b f.k_out)
        = 1 := by
    intro a b ha hb hab
    rw [create_model_restraints_decomp, List.count_append, List.count_append,
      List.count_append]
    have c1 : ((create_model_chains f seq n ic).map Chain.restraint).count
        (Restraint.interchain a b f.k_out) = 0 := by
      rw [List.count_eq_zero]
      intro hmem
      rw [List.mem_map] at hmem
      obtain ⟨c, hc, hr⟩ := hmem
      obtain ⟨i', _, rfl⟩ := (mem_create_model_chains f seq ic n c).mp hc
      simp [ProteinChainFactory.create] at hr
    have c2 : ([Restraint.excludedVolume (get_all_beads (create_model_chains f seq n ic))
        1 10 "Excluded-Volume"]).count (Restraint.interchain a b f.k_out) = 0 := by
      rw [List.count_eq_zero]
      intro hmem
      rw [List.mem_singleton] at hmem
      exact Restraint.noConfusion hmem
    have c4 : ([Restraint.boundingSphere (get_all_beads (create_model_chains f seq n ic))
        f.kbs f.sphere_radius]).count (Restraint.interchain a b f.k_out) = 0 := by
      rw [List.count_eq_zero]
      intro hmem
      rw [List.mem_singleton] at hmem
      exact Restraint.noConfusion hmem
    have c3 : (model_interchain f seq n ic).count (Restraint.interchain a b f.k_out)
        = 1 :=
      List.count_eq_one_of_mem (model_interchain_nodup f seq ic n)
        ((mem_model_interchain f seq ic n _).mpr ⟨a, b, ha, hb, hab, rfl⟩)
    rw [c1, c2, c3, c4]
  refine ⟨hcount i j hi hj hij, hcount j i hj hi (Ne.symm hij), ?_⟩
  rw [create_model_restraints_decomp, List.length_append, List.length_append,
    List.length_append, List.length_map, model_interchain_length]
  have hlen : (create_model_chains f seq n ic).length = n := by
    simp [create_model_chains]
  rw [hlen]
  generalize n * (n - 1) = m
  simp only [List.length_singleton]
  omega

/-- Witness for the inter-chain count theorem on two chains. -/
theorem interchain_restraint_counts_witness :
    ((0 : ℕ) < 2 ∧ (1 : ℕ) < 2 ∧ (0 : ℕ) ≠ 1)
    ∧ ((create_model_restraints demoFactory "AAAA" 2 true).count
          (Restraint.interchain 0 1 demoFactory.k_out) = 1
        ∧ (create_model_restraints demoFactory "AAAA" 2 true).count
            (Restraint.interchain 1 0 demoFactory.k_out) = 1
        ∧ (create_model_restraints demoFactory "AAAA" 2 true).length
            = 2 + 2 * (2 - 1) + 2) :=
  ⟨⟨by decide, by decide, by decide⟩,
    interchain_restraint_counts demoFactory "AAAA" true 2 0 1
      (by decide) (by decide) (by decide)⟩

end MainModel
